import Mathlib

/-!
Verification development for the projectm-rs binding layer and the
preset-transition / audio pipeline it exposes.

The Rust binding code under src/ is embedded shallowly: every fallible
operation (a Rust panic, an assertion failure, a failed unwrap) is an
`Except.error` carrying the panic message, and every successful call is
`Except.ok` carrying exactly the data that is handed to the underlying
engine. Engine-side behaviour that is not present in the repository
(the transition state machine, the audio ring buffer, the configuration
storage) is modelled from the specification document, and each such
definition says so in its doc comment.
-/

namespace ProjectM

/-- The arguments an audio push hands to the engine after the binding layer
has validated them: the raw sample slice, the computed samples-per-channel
count, and the channel count. `α` is the sample element type (the binding
performs no arithmetic on the samples themselves; it forwards the slice
pointer verbatim). -/
structure EngineAudioCall (α : Type) where
  samples : List α
  samplesPerChannel : Nat
  channels : Nat
deriving DecidableEq

/-- Panic message of the capacity assertion in pcm_add_float, pcm_add_int16
and pcm_add_uint8 in src/core/inner.rs. -/
def pcmAssertMsg : String := "Number of samples is greater than max samples"

/-- Panic message of an integer division by zero in Rust. -/
def divByZeroMsg : String := "attempt to divide by zero"

/-- Embedding of pcm_add_float (src/core/inner.rs). `maxSamples` is the
value returned by the external projectm_pcm_get_max_samples. The source
first asserts that the slice length does not exceed `maxSamples` (a Rust
panic on violation), then computes samples.len() / channels with Rust
integer division, which panics when channels = 0, and finally forwards the
slice, the per-channel count and the channel count to the engine. f32
sample values are opaque to the binding and are carried as rationals. -/
def pcm_add_float (maxSamples : Nat) (samples : List ℚ) (channels : Nat) :
    Except String (EngineAudioCall ℚ) :=
  if samples.length ≤ maxSamples then
    if channels = 0 then
      Except.error divByZeroMsg
    else
      Except.ok ⟨samples, samples.length / channels, channels⟩
  else
    Except.error pcmAssertMsg

/-- Embedding of pcm_add_int16 (src/core/inner.rs); identical control flow
to pcm_add_float with i16 samples, carried as integers. -/
def pcm_add_int16 (maxSamples : Nat) (samples : List Int) (channels : Nat) :
    Except String (EngineAudioCall Int) :=
  if samples.length ≤ maxSamples then
    if channels = 0 then
      Except.error divByZeroMsg
    else
      Except.ok ⟨samples, samples.length / channels, channels⟩
  else
    Except.error pcmAssertMsg

/-- Embedding of pcm_add_uint8 (src/core/inner.rs); identical control flow
to pcm_add_float with u8 samples, carried as naturals. -/
def pcm_add_uint8 (maxSamples : Nat) (samples : List Nat) (channels : Nat) :
    Except String (EngineAudioCall Nat) :=
  if samples.length ≤ maxSamples then
    if channels = 0 then
      Except.error divByZeroMsg
    else
      Except.ok ⟨samples, samples.length / channels, channels⟩
  else
    Except.error pcmAssertMsg

/-- Modelled from the spec: the fixed-capacity AudioBuffer ring of
interleaved float samples (spec section 4.1). The engine is not part of the
repository; the buffer keeps at most `capacity` samples, the most recently
pushed ones, with mono input duplicated to an interleaved stereo stream.
Samples are stored most recent last. -/
structure AudioBuffer where
  capacity : Nat
  data : List ℚ
deriving DecidableEq

/-- Modelled from the spec: AudioBuffer.push (spec section 4.1). Mono input
is duplicated to stereo; when the stored stream would exceed `capacity`,
the oldest samples are discarded first so that only the most recent
`capacity` samples remain. -/
def AudioBuffer.push (b : AudioBuffer) (samples : List ℚ) (channels : Nat) :
    AudioBuffer :=
  let interleaved :=
    if channels = 1 then samples.flatMap (fun s => [s, s]) else samples
  let all := b.data ++ interleaved
  { b with data := all.drop (all.length - b.capacity) }

/-- Modelled from the spec: AudioBuffer.pop_window returns up to `n` most
recent samples without removing them (spec section 4.1). -/
def AudioBuffer.popWindow (b : AudioBuffer) (n : Nat) : List ℚ :=
  b.data.drop (b.data.length - n)

/-- The value of the Rust expression `fps as i32` for a u32 `fps`:
reinterpretation of the 32-bit pattern as signed. -/
def u32_as_i32 (fps : Nat) : Int :=
  if fps < 2 ^ 31 then (fps : Int) else (fps : Int) - 2 ^ 32

/-- Panic message of the failed `try_into().unwrap()` in get_fps
(src/core/inner.rs) when the engine reports a negative fps. -/
def fpsUnwrapMsg : String := "TryFromIntError"

/-- Fueled base-2 integer logarithm: for 1 ≤ n < 2^fuel this is the L
with 2^L ≤ n < 2^(L+1). -/
def natLog2 (fuel n : Nat) : Nat :=
  match fuel with
  | 0 => 0
  | f + 1 => if n ≤ 1 then 0 else natLog2 f (n / 2) + 1

/-- The floor base-2 logarithm of a positive rational with numerator and
denominator below 2^128, computed from the integer logarithms of the
numerator and the denominator. -/
def ratFlog2 (q : ℚ) : Int :=
  let n := q.num.toNat
  let d := q.den
  let L := natLog2 128 n
  let M := natLog2 128 d
  if d * 2 ^ L ≤ n * 2 ^ M then (L : Int) - M else (L : Int) - M - 1

/-- Round a rational to the nearest integer with ties to even — the
rounding of IEEE double arithmetic and of the nanosecond rounding inside
Duration::try_from_secs. -/
def roundHalfEven (q : ℚ) : Int :=
  if q - ⌊q⌋ < 1 / 2 then ⌊q⌋
  else if 1 / 2 < q - ⌊q⌋ then ⌊q⌋ + 1
  else if ⌊q⌋ % 2 = 0 then ⌊q⌋ else ⌊q⌋ + 1

/-- Round a nonnegative rational to the nearest IEEE double (53-bit
significand, round to nearest, ties to even): the value is scaled so that
its significand lies in [2^52, 2^53), rounded there, and scaled back.
The modelled domain is zero together with the positive normal range with
numerator and denominator below 2^128, which covers every value arising
in the duration second conversions (no subnormals, no rounding to
infinity). -/
def roundF64 (q : ℚ) : ℚ :=
  if q = 0 then 0
  else
    ((roundHalfEven (q / 2 ^ (ratFlog2 q - 52)) : ℚ)) *
      2 ^ (ratFlog2 q - 52)

/-- IEEE double addition: the exact rational sum, rounded. -/
def f64add (a b : ℚ) : ℚ := roundF64 (a + b)

/-- IEEE double division: the exact rational quotient, rounded. -/
def f64div (a b : ℚ) : ℚ := roundF64 (a / b)

/-- Rust std::time::Duration as used by set_soft_cut_duration and
set_preset_duration (src/core.rs): whole seconds (a u64; its bound is a
hypothesis where needed) plus subsecond nanoseconds below 10^9. -/
structure Duration where
  secs : Nat
  nanos : Nat
deriving DecidableEq

/-- Duration::as_secs_f64, the conversion applied by the Duration-valued
setters in src/core.rs: (secs as f64) + (nanos as f64) / 1e9 in f64
arithmetic. The u64-to-f64 cast rounds to nearest; nanos (below 10^9)
and the constant 1e9 are exactly representable. -/
def Duration.as_secs_f64 (d : Duration) : ℚ :=
  f64add (roundF64 (d.secs : ℚ)) (f64div (roundF64 (d.nanos : ℚ)) (10 ^ 9))

/-- Panic message of Duration::from_secs_f64 on a negative input. -/
def durationNegMsg : String :=
  "can not convert float seconds to Duration: value is negative"

/-- Panic message of Duration::from_secs_f64 on an input of at least
2^64 seconds (or NaN, which cannot arise here). -/
def durationOverflowMsg : String :=
  "can not convert float seconds to Duration: value is either too big or NaN"

/-- Duration::from_secs_f64, the conversion applied by the
Duration-valued getters in src/core.rs, modelled from its documented
semantics: the finite input is rounded to the nearest nanosecond with
ties to even; a negative value or a value of at least 2^64 seconds makes
it panic. -/
def Duration.from_secs_f64 (x : ℚ) : Except String Duration :=
  if x < 0 then Except.error durationNegMsg
  else if (2 : ℚ) ^ (64 : ℕ) ≤ x then Except.error durationOverflowMsg
  else
    let n := (roundHalfEven (x * 10 ^ 9)).toNat
    Except.ok ⟨n / 10 ^ 9, n % 10 ^ 9⟩

/-- Modelled from the spec: the engine-side EngineConfig scalar storage
(spec section 3). The engine is external to the repository; per the spec
each setter stores its argument and each getter returns the stored value.
f32/f64 scalars are carried as rationals (the binding performs no
arithmetic on them; every finite f64 is an exact rational), the
Duration-valued settings store the f64 seconds value produced by
Duration::as_secs_f64, and the fps slot stores the i32 the binding
passes to projectm_set_fps. -/
structure EngineConfig where
  beatSensitivity : ℚ
  hardCutDuration : ℚ
  hardCutEnabled : Bool
  hardCutSensitivity : ℚ
  softCutDurationSeconds : ℚ
  presetDurationSeconds : ℚ
  meshX : Nat
  meshY : Nat
  fpsStored : Int
  aspectCorrection : Bool
  easterEgg : ℚ
  presetLocked : Bool
  windowWidth : Nat
  windowHeight : Nat
deriving DecidableEq

/-- set_beat_sensitivity (src/core/inner.rs): forwards the f32 verbatim. -/
def set_beat_sensitivity (c : EngineConfig) (v : ℚ) : EngineConfig :=
  { c with beatSensitivity := v }

/-- get_beat_sensitivity (src/core/inner.rs): returns the engine value. -/
def get_beat_sensitivity (c : EngineConfig) : ℚ :=
  c.beatSensitivity

/-- set_hard_cut_duration (src/core/inner.rs): forwards the f64 verbatim. -/
def set_hard_cut_duration (c : EngineConfig) (v : ℚ) : EngineConfig :=
  { c with hardCutDuration := v }

/-- get_hard_cut_duration (src/core/inner.rs): returns the engine value. -/
def get_hard_cut_duration (c : EngineConfig) : ℚ :=
  c.hardCutDuration

/-- set_hard_cut_enabled (src/core/inner.rs): forwards the bool verbatim. -/
def set_hard_cut_enabled (c : EngineConfig) (v : Bool) : EngineConfig :=
  { c with hardCutEnabled := v }

/-- get_hard_cut_enabled (src/core/inner.rs): returns the engine value. -/
def get_hard_cut_enabled (c : EngineConfig) : Bool :=
  c.hardCutEnabled

/-- set_hard_cut_sensitivity (src/core/inner.rs): forwards the f32. -/
def set_hard_cut_sensitivity (c : EngineConfig) (v : ℚ) : EngineConfig :=
  { c with hardCutSensitivity := v }

/-- get_hard_cut_sensitivity (src/core/inner.rs): returns the engine
value. -/
def get_hard_cut_sensitivity (c : EngineConfig) : ℚ :=
  c.hardCutSensitivity

/-- set_soft_cut_duration (src/core.rs): converts the Duration argument
with Duration::as_secs_f64 (a lossy f64 rounding) and forwards the
resulting seconds value to the engine. -/
def set_soft_cut_duration (c : EngineConfig) (v : Duration) : EngineConfig :=
  { c with softCutDurationSeconds := v.as_secs_f64 }

/-- get_soft_cut_duration (src/core.rs): reads the engine f64 seconds
value back and converts it with Duration::from_secs_f64, which panics on
a negative value or one of at least 2^64 seconds. -/
def get_soft_cut_duration (c : EngineConfig) : Except String Duration :=
  Duration.from_secs_f64 c.softCutDurationSeconds

/-- set_preset_duration (src/core.rs): converts the Duration argument
with Duration::as_secs_f64 (a lossy f64 rounding) and forwards the
resulting seconds value to the engine. -/
def set_preset_duration (c : EngineConfig) (v : Duration) : EngineConfig :=
  { c with presetDurationSeconds := v.as_secs_f64 }

/-- get_preset_duration (src/core.rs): reads the engine f64 seconds
value back and converts it with Duration::from_secs_f64, which panics on
a negative value or one of at least 2^64 seconds. -/
def get_preset_duration (c : EngineConfig) : Except String Duration :=
  Duration.from_secs_f64 c.presetDurationSeconds

/-- set_mesh_size (src/core/inner.rs): forwards both usize values. -/
def set_mesh_size (c : EngineConfig) (x y : Nat) : EngineConfig :=
  { c with meshX := x, meshY := y }

/-- get_mesh_size (src/core/inner.rs): returns the engine values as a
(width, height) pair. -/
def get_mesh_size (c : EngineConfig) : Nat × Nat :=
  (c.meshX, c.meshY)

/-- set_fps (src/core/inner.rs): the u32 argument is passed to the engine
through the cast `fps as i32`, so the engine stores the 32-bit pattern
reinterpreted as signed. -/
def set_fps (c : EngineConfig) (fps : Nat) : EngineConfig :=
  { c with fpsStored := u32_as_i32 fps }

/-- get_fps (src/core/inner.rs): converts the engine i32 with
`try_into().unwrap()`, which panics when the stored value is negative. -/
def get_fps (c : EngineConfig) : Except String Nat :=
  if 0 ≤ c.fpsStored then Except.ok c.fpsStored.toNat
  else Except.error fpsUnwrapMsg

/-- set_aspect_correction (src/core/inner.rs): forwards the bool. -/
def set_aspect_correction (c : EngineConfig) (v : Bool) : EngineConfig :=
  { c with aspectCorrection := v }

/-- get_aspect_correction (src/core/inner.rs): returns the engine value. -/
def get_aspect_correction (c : EngineConfig) : Bool :=
  c.aspectCorrection

/-- set_easter_egg (src/core/inner.rs), the preset duration variance:
forwards the f32. -/
def set_easter_egg (c : EngineConfig) (v : ℚ) : EngineConfig :=
  { c with easterEgg := v }

/-- get_easter_egg (src/core/inner.rs): returns the engine value. -/
def get_easter_egg (c : EngineConfig) : ℚ :=
  c.easterEgg

/-- set_preset_locked (src/core/inner.rs): forwards the bool. -/
def set_preset_locked (c : EngineConfig) (v : Bool) : EngineConfig :=
  { c with presetLocked := v }

/-- get_preset_locked (src/core/inner.rs): returns the engine value. -/
def get_preset_locked (c : EngineConfig) : Bool :=
  c.presetLocked

/-- set_window_size (src/core/inner.rs): forwards both usize values. -/
def set_window_size (c : EngineConfig) (w h : Nat) : EngineConfig :=
  { c with windowWidth := w, windowHeight := h }

/-- get_window_size (src/core/inner.rs): returns the engine values as a
(width, height) pair. -/
def get_window_size (c : EngineConfig) : Nat × Nat :=
  (c.windowWidth, c.windowHeight)

/-- A concrete engine configuration used by closed statements: the
documented defaults where the source states one (fps defaults to 60),
arbitrary representative values elsewhere. -/
def initialConfig : EngineConfig :=
  { beatSensitivity := 1
  , hardCutDuration := 60
  , hardCutEnabled := false
  , hardCutSensitivity := 1
  , softCutDurationSeconds := 3
  , presetDurationSeconds := 30
  , meshX := 32
  , meshY := 24
  , fpsStored := 60
  , aspectCorrection := true
  , easterEgg := 0
  , presetLocked := false
  , windowWidth := 640
  , windowHeight := 480 }

/-- Modelled from the spec: a PresetSlot owns one compiled preset artifact
plus per-preset warp state and mesh dimensions (spec section 3). Artifacts
and warp state are opaque and carried as naturals. -/
structure PresetSlot where
  artifact : Nat
  warpState : Nat
  meshX : Nat
  meshY : Nat
deriving DecidableEq

/-- Modelled from the spec: the TransitionState tagged variant (spec
section 3): Idle, HardCutPending, or SoftCutInProgress with a progress
fraction and the start timestamp. -/
inductive TransitionState where
  | Idle : TransitionState
  | HardCutPending : TransitionState
  | SoftCutInProgress (progress : ℚ) (startedAt : ℚ) : TransitionState
deriving DecidableEq

/-- Modelled from the spec: the events the engine fires to observers (spec
section 6): PresetSwitchRequested with its hard-cut flag, and
PresetSwitchFailed with the preset identifier and the compiler message. -/
inductive EngineEvent where
  | switchRequested (isHardCut : Bool) : EngineEvent
  | switchFailed (preset : Nat) (message : String) : EngineEvent
deriving DecidableEq

/-- The origin of a preset-switch request (spec section 4.3): an explicit
caller request, a duration-timer expiry, or an audio-driven trigger. -/
inductive RequestSource where
  | explicitReq : RequestSource
  | timer : RequestSource
  | audio : RequestSource
deriving DecidableEq

/-- Whether a switch request asks for a hard cut or a soft cut. -/
inductive SwitchKind where
  | hard : SwitchKind
  | soft : SwitchKind
deriving DecidableEq

/-- Modelled from the spec: the TransitionController state (spec sections
3 and 4.3): the active slot, the optional incoming slot during a soft cut,
the transition state, the lock flag and the configured soft cut duration
in seconds. -/
structure Controller where
  active : PresetSlot
  incoming : Option PresetSlot
  state : TransitionState
  presetLocked : Bool
  softCutDuration : ℚ
deriving DecidableEq

/-- Modelled from the spec: TransitionController request handling (spec
section 4.3). `compile` is the external compiled-artifact producer.
When `preset_locked` is true, only explicit requests are honored; timer
and audio requests are suppressed silently, with no event fired and no
state change. A hard cut compiles the preset, swaps the active slot on
success (discarding old warp state and any in-progress soft cut) and
returns to Idle within the same call; on failure the active slot is left
intact and a PresetSwitchFailed event fires. A soft cut instantiates the
incoming slot and enters SoftCutInProgress with progress 0; on compile
failure nothing changes except the fired failure event. The returned list
holds the events fired during the call. -/
def handleSwitchRequest (compile : Nat → Except String Nat)
    (c : Controller) (src : RequestSource) (kind : SwitchKind)
    (preset : Nat) (now : ℚ) : Controller × List EngineEvent :=
  if c.presetLocked ∧ src ≠ RequestSource.explicitReq then
    (c, [])
  else
    match kind with
    | SwitchKind.hard =>
      match compile preset with
      | Except.ok a =>
        ({ c with
            active := { artifact := a, warpState := 0,
                        meshX := c.active.meshX, meshY := c.active.meshY }
            incoming := none
            state := TransitionState.Idle },
         [EngineEvent.switchRequested true])
      | Except.error msg =>
        ({ c with incoming := none, state := TransitionState.Idle },
         [EngineEvent.switchRequested true,
          EngineEvent.switchFailed preset msg])
    | SwitchKind.soft =>
      match compile preset with
      | Except.ok a =>
        ({ c with
            incoming := some { artifact := a, warpState := 0,
                               meshX := c.active.meshX,
                               meshY := c.active.meshY }
            state := TransitionState.SoftCutInProgress 0 now },
         [EngineEvent.switchRequested false])
      | Except.error msg =>
        (c, [EngineEvent.switchFailed preset msg])

/-- Modelled from the spec: the per-frame transition advance (spec section
4.3). While in SoftCutInProgress, progress increases by
frame_delta / soft_cut_duration, clamped to 1; when the clamped progress
reaches 1 the incoming slot becomes active, the old slot is destroyed and
the state returns to Idle. All other states are left unchanged. -/
def advanceFrame (delta : ℚ) (c : Controller) : Controller :=
  match c.state with
  | TransitionState.SoftCutInProgress p t =>
    let p2 := min 1 (p + delta / c.softCutDuration)
    if 1 ≤ p2 then
      { c with
          state := TransitionState.Idle
          active := c.incoming.getD c.active
          incoming := none }
    else
      { c with state := TransitionState.SoftCutInProgress p2 t }
  | _ => c

/-- The clamped soft-cut progress after `n` frames of constant delta
`delta` with soft cut duration `d`. -/
def softCutProgress (d delta : ℚ) (n : Nat) : ℚ :=
  min 1 ((n : ℚ) * delta / d)

/-- Embedding of CString::new on a byte sequence: fails (a NulError) when
the bytes contain a zero byte anywhere, otherwise yields the bytes with a
terminating zero appended. -/
def cstring_new (bytes : List Nat) : Except String (List Nat) :=
  if 0 ∈ bytes then Except.error "nul byte found in provided data"
  else Except.ok (bytes ++ [0])

/-- Panic message of the expect in write_debug_image_on_next_frame
(src/core/inner.rs). -/
def debugImageExpectMsg : String :=
  "Provided output file path could not be converted to a C string"

/-- Embedding of write_debug_image_on_next_frame (src/core/inner.rs).
A `none` output file passes a null pointer to the engine; a given path is
converted with CString::new and `expect`, panicking if the path holds an
interior NUL byte, otherwise the engine receives the NUL-terminated
bytes. -/
def write_debug_image_on_next_frame (output_file : Option (List Nat)) :
    Except String (Option (List Nat)) :=
  match output_file with
  | none => Except.ok none
  | some p =>
    match cstring_new p with
    | Except.error _ => Except.error debugImageExpectMsg
    | Except.ok s => Except.ok (some s)

/-- The collection of the CString conversions of a path list, stopping at
the first failure, as the `.map(...).collect()` over CString::new results
does in set_texture_search_paths. -/
def cstringList (paths : List (List Nat)) :
    Except String (List (List Nat)) :=
  match paths with
  | [] => Except.ok []
  | p :: rest =>
    match cstring_new p with
    | Except.error e => Except.error e
    | Except.ok c =>
      match cstringList rest with
      | Except.error e => Except.error e
      | Except.ok cs => Except.ok (c :: cs)

/-- Embedding of set_texture_search_paths (src/core/inner.rs). Each path
is converted with CString::new and unwrap, panicking on an interior NUL
byte; the engine then receives the array of NUL-terminated strings with a
trailing null pointer entry (modelled as `none`) appended, together with
the caller-supplied count. -/
def set_texture_search_paths (paths : List (List Nat)) (count : Nat) :
    Except String (List (Option (List Nat)) × Nat) :=
  match cstringList paths with
  | Except.error e => Except.error e
  | Except.ok cstrs => Except.ok (cstrs.map some ++ [none], count)

/-- C7: for every sample slice whose length does not exceed the engine
capacity pcm_get_max_samples and every channel count in {1, 2},
pcm_add_float, pcm_add_int16 and pcm_add_uint8 complete normally — no
assertion fires and no conversion panics — and the samples-per-channel
count passed to the engine equals the slice length divided by the channel
count. -/
theorem pcm_add_within_capacity_ok (maxSamples ch : Nat)
    (s1 : List ℚ) (s2 : List Int) (s3 : List Nat)
    (h1 : s1.length ≤ maxSamples) (h2 : s2.length ≤ maxSamples)
    (h3 : s3.length ≤ maxSamples) (hch : ch = 1 ∨ ch = 2) :
    pcm_add_float maxSamples s1 ch = Except.ok ⟨s1, s1.length / ch, ch⟩ ∧
    pcm_add_int16 maxSamples s2 ch = Except.ok ⟨s2, s2.length / ch, ch⟩ ∧
    pcm_add_uint8 maxSamples s3 ch = Except.ok ⟨s3, s3.length / ch, ch⟩ := by
  have hch0 : ch ≠ 0 := by rcases hch with h | h <;> simp [h]
  refine ⟨?_, ?_, ?_⟩ <;>
    simp [pcm_add_float, pcm_add_int16, pcm_add_uint8, h1, h2, h3, hch0]

/-- Witness for C7 at concrete inputs. -/
theorem pcm_add_within_capacity_ok_witness :
    ([(1 : ℚ), 2, 3, 4].length ≤ 2048 ∧ [(5 : Int), 6].length ≤ 2048 ∧
      [7, 8, 9, 10].length ≤ 2048) ∧
    pcm_add_float 2048 [(1 : ℚ), 2, 3, 4] 2 =
      Except.ok ⟨[(1 : ℚ), 2, 3, 4], 2, 2⟩ ∧
    pcm_add_int16 2048 [(5 : Int), 6] 2 = Except.ok ⟨[(5 : Int), 6], 1, 2⟩ ∧
    pcm_add_uint8 2048 [7, 8, 9, 10] 2 = Except.ok ⟨[7, 8, 9, 10], 2, 2⟩ :=
  ⟨⟨by decide, by decide, by decide⟩,
    pcm_add_within_capacity_ok 2048 2 [(1 : ℚ), 2, 3, 4] [(5 : Int), 6]
      [7, 8, 9, 10] (by decide) (by decide) (by decide) (Or.inr rfl)⟩

/-- C8: the channel domain is an unchecked precondition — for every slice
within capacity, calling pcm_add_float, pcm_add_int16 or pcm_add_uint8
with zero channels panics with a division by zero (the computation of
samples_per_channel) before any data reaches the engine. -/
theorem pcm_add_zero_channels_panics (maxSamples : Nat)
    (s1 : List ℚ) (s2 : List Int) (s3 : List Nat)
    (h1 : s1.length ≤ maxSamples) (h2 : s2.length ≤ maxSamples)
    (h3 : s3.length ≤ maxSamples) :
    pcm_add_float maxSamples s1 0 = Except.error divByZeroMsg ∧
    pcm_add_int16 maxSamples s2 0 = Except.error divByZeroMsg ∧
    pcm_add_uint8 maxSamples s3 0 = Except.error divByZeroMsg := by
  refine ⟨?_, ?_, ?_⟩ <;>
    simp [pcm_add_float, pcm_add_int16, pcm_add_uint8, h1, h2, h3]

/-- Witness for C8 at concrete inputs. -/
theorem pcm_add_zero_channels_panics_witness :
    ([(1 : ℚ), 2].length ≤ 2048 ∧ [(3 : Int)].length ≤ 2048 ∧
      ([] : List Nat).length ≤ 2048) ∧
    pcm_add_float 2048 [(1 : ℚ), 2] 0 = Except.error divByZeroMsg ∧
    pcm_add_int16 2048 [(3 : Int)] 0 = Except.error divByZeroMsg ∧
    pcm_add_uint8 2048 [] 0 = Except.error divByZeroMsg :=
  ⟨⟨by decide, by decide, by decide⟩,
    pcm_add_zero_channels_panics 2048 [(1 : ℚ), 2] [(3 : Int)] []
      (by decide) (by decide) (by decide)⟩

/-- C6: pushing an empty slice through pcm_add_float, pcm_add_int16 or
pcm_add_uint8 is a no-op, not an error: the binding completes normally
passing zero samples per channel, the AudioBuffer is unchanged, and every
analysis window read from it — hence the derived audio-energy signal — is
unchanged. -/
theorem pcm_push_zero_samples_noop (maxSamples ch : Nat)
    (hch : ch = 1 ∨ ch = 2) (b : AudioBuffer)
    (hb : b.data.length ≤ b.capacity) :
    pcm_add_float maxSamples [] ch = Except.ok ⟨[], 0, ch⟩ ∧
    pcm_add_int16 maxSamples [] ch = Except.ok ⟨[], 0, ch⟩ ∧
    pcm_add_uint8 maxSamples [] ch = Except.ok ⟨[], 0, ch⟩ ∧
    AudioBuffer.push b [] ch = b ∧
    ∀ n, (AudioBuffer.push b [] ch).popWindow n = b.popWindow n := by
  have hch0 : ch ≠ 0 := by rcases hch with h | h <;> simp [h]
  have hsub : b.data.length - b.capacity = 0 := Nat.sub_eq_zero_of_le hb
  have hpush : AudioBuffer.push b [] ch = b := by
    simp [AudioBuffer.push, hsub]
  refine ⟨?_, ?_, ?_, hpush, fun n => by rw [hpush]⟩ <;>
    simp [pcm_add_float, pcm_add_int16, pcm_add_uint8, hch0]

/-- Witness for C6 at a concrete buffer holding two samples. -/
theorem pcm_push_zero_samples_noop_witness :
    ((2 = 2 ∨ 2 = 1) ∧
      (AudioBuffer.mk 8 [(1 : ℚ), 2]).data.length ≤
        (AudioBuffer.mk 8 [(1 : ℚ), 2]).capacity) ∧
    pcm_add_float 2048 [] 2 = Except.ok ⟨[], 0, 2⟩ ∧
    pcm_add_int16 2048 [] 2 = Except.ok ⟨[], 0, 2⟩ ∧
    pcm_add_uint8 2048 [] 2 = Except.ok ⟨[], 0, 2⟩ ∧
    AudioBuffer.push (AudioBuffer.mk 8 [(1 : ℚ), 2]) [] 2 =
      AudioBuffer.mk 8 [(1 : ℚ), 2] ∧
    ∀ n, (AudioBuffer.push (AudioBuffer.mk 8 [(1 : ℚ), 2]) [] 2).popWindow n =
      (AudioBuffer.mk 8 [(1 : ℚ), 2]).popWindow n :=
  ⟨⟨Or.inl rfl, by decide⟩,
    pcm_push_zero_samples_noop 2048 2 (Or.inr rfl)
      (AudioBuffer.mk 8 [(1 : ℚ), 2]) (by decide)⟩

/-- C1 counterexample: pushing one sample more than the capacity makes
pcm_add_float raise the assertion failure to the caller, so the overflow
condition is not a soft condition handled by truncation. -/
theorem pcm_overflow_counterexample :
    pcm_add_float 2048 (List.replicate 2049 (0 : ℚ)) 2 =
      Except.error pcmAssertMsg := by
  norm_num [pcm_add_float, List.length_replicate]

/-- C1 amended: pushing more samples than the capacity
pcm_get_max_samples is raised to the caller as an assertion failure (a
panic) by pcm_add_float, pcm_add_int16 and pcm_add_uint8; the binding
rejects the call rather than truncating to the most recent samples. -/
theorem pcm_overflow_asserts (maxSamples ch : Nat)
    (s1 : List ℚ) (s2 : List Int) (s3 : List Nat)
    (h1 : maxSamples < s1.length) (h2 : maxSamples < s2.length)
    (h3 : maxSamples < s3.length) :
    pcm_add_float maxSamples s1 ch = Except.error pcmAssertMsg ∧
    pcm_add_int16 maxSamples s2 ch = Except.error pcmAssertMsg ∧
    pcm_add_uint8 maxSamples s3 ch = Except.error pcmAssertMsg := by
  refine ⟨?_, ?_, ?_⟩ <;>
    simp [pcm_add_float, pcm_add_int16, pcm_add_uint8,
      Nat.not_le.mpr h1, Nat.not_le.mpr h2, Nat.not_le.mpr h3]

/-- Witness for the amended C1 at concrete inputs. -/
theorem pcm_overflow_asserts_witness :
    (2 < [(1 : ℚ), 2, 3].length ∧ 2 < [(4 : Int), 5, 6].length ∧
      2 < [7, 8, 9].length) ∧
    pcm_add_float 2 [(1 : ℚ), 2, 3] 2 = Except.error pcmAssertMsg ∧
    pcm_add_int16 2 [(4 : Int), 5, 6] 2 = Except.error pcmAssertMsg ∧
    pcm_add_uint8 2 [7, 8, 9] 2 = Except.error pcmAssertMsg :=
  ⟨⟨by decide, by decide, by decide⟩,
    pcm_overflow_asserts 2 2 [(1 : ℚ), 2, 3] [(4 : Int), 5, 6] [7, 8, 9]
      (by decide) (by decide) (by decide)⟩

lemma natLog2_correct : ∀ (fuel n : Nat), 1 ≤ n → n < 2 ^ fuel →
    2 ^ natLog2 fuel n ≤ n ∧ n < 2 ^ (natLog2 fuel n + 1) := by
  intro fuel
  induction fuel with
  | zero =>
    intro n h1 h2
    norm_num at h2
    omega
  | succ f ih =>
    intro n h1 h2
    by_cases hn : n ≤ 1
    · have hne : n = 1 := by omega
      subst hne
      norm_num [natLog2]
    · have hrec1 : 1 ≤ n / 2 := by omega
      have hrec2 : n / 2 < 2 ^ f := by
        rw [pow_succ] at h2
        omega
      obtain ⟨ha, hb⟩ := ih (n / 2) hrec1 hrec2
      have hlog : natLog2 (f + 1) n = natLog2 f (n / 2) + 1 := by
        simp [natLog2, hn]
      rw [hlog, pow_succ, pow_succ]
      rw [pow_succ] at hb
      omega

lemma natLog2_eq (n L : Nat) (h1 : 2 ^ L ≤ n) (h2 : n < 2 ^ (L + 1))
    (h3 : n < 2 ^ 128) : natLog2 128 n = L := by
  have h0 : 1 ≤ n := le_trans (Nat.one_le_pow _ _ (by norm_num)) h1
  obtain ⟨ha, hb⟩ := natLog2_correct 128 n h0 h3
  rcases Nat.lt_trichotomy (natLog2 128 n) L with h | h | h
  · exfalso
    have hle : 2 ^ (natLog2 128 n + 1) ≤ 2 ^ L :=
      Nat.pow_le_pow_right (by norm_num) (by omega)
    omega
  · exact h
  · exfalso
    have hle : 2 ^ (L + 1) ≤ 2 ^ natLog2 128 n :=
      Nat.pow_le_pow_right (by norm_num) (by omega)
    omega

lemma ratFlog2_natCast (s : Nat) (h1 : 1 ≤ s) (h2 : s < 2 ^ 128) :
    ratFlog2 (s : ℚ) = (natLog2 128 s : Int) := by
  obtain ⟨ha, _⟩ := natLog2_correct 128 s h1 h2
  simp only [ratFlog2, Rat.num_natCast, Rat.den_natCast, Int.toNat_natCast]
  have hone : natLog2 128 1 = 0 := rfl
  rw [hone]
  simp only [pow_zero, one_mul, mul_one, Nat.cast_zero, sub_zero]
  rw [if_pos ha]

lemma roundHalfEven_intCast (k : Int) : roundHalfEven (k : ℚ) = k := by
  unfold roundHalfEven
  rw [Int.floor_intCast]
  norm_num

lemma roundHalfEven_natCast (n : Nat) : roundHalfEven (n : ℚ) = n := by
  have hc : ((n : Int) : ℚ) = (n : ℚ) := by push_cast; ring
  rw [← hc, roundHalfEven_intCast]

lemma roundHalfEven_add_half (k : Int) (hk : k % 2 = 0) :
    roundHalfEven ((k : ℚ) + 1 / 2) = k := by
  have hfl : ⌊(k : ℚ) + 1 / 2⌋ = k := by
    refine Int.floor_eq_iff.mpr ⟨by linarith, by linarith⟩
  unfold roundHalfEven
  rw [hfl]
  have hfrac : (k : ℚ) + 1 / 2 - k = 1 / 2 := by ring
  rw [hfrac]
  norm_num [hk]

lemma roundF64_zero : roundF64 0 = 0 := by
  simp [roundF64]

lemma roundF64_natCast_exact (s : Nat) (h1 : 1 ≤ s) (h2 : s < 2 ^ 53) :
    roundF64 (s : ℚ) = s := by
  have h128 : s < 2 ^ 128 := lt_trans h2 (by norm_num)
  obtain ⟨ha, hb⟩ := natLog2_correct 128 s h1 h128
  have hL52 : natLog2 128 s ≤ 52 := by
    by_contra hcon
    have hle : 2 ^ 53 ≤ 2 ^ natLog2 128 s :=
      Nat.pow_le_pow_right (by norm_num) (by omega)
    omega
  have hflog : ratFlog2 (s : ℚ) = (natLog2 128 s : Int) :=
    ratFlog2_natCast s h1 h128
  have hspos : (0 : ℚ) < s := by
    have h' : (1 : ℚ) ≤ (s : ℚ) := by exact_mod_cast h1
    linarith
  have hcast : (natLog2 128 s : Int) - 52 =
      -(((52 - natLog2 128 s : ℕ) : Int)) := by omega
  simp only [roundF64]
  rw [if_neg hspos.ne', hflog, hcast, zpow_neg, zpow_natCast,
    div_inv_eq_mul]
  have hsx : (s : ℚ) * 2 ^ (52 - natLog2 128 s) =
      ((s * 2 ^ (52 - natLog2 128 s) : ℕ) : ℚ) := by
    push_cast
    ring
  rw [hsx, roundHalfEven_natCast]
  push_cast
  rw [mul_assoc, mul_inv_cancel₀ (by positivity), mul_one]

lemma roundF64_natCast_eq (s L : Nat) (h128 : s < 2 ^ 128)
    (hlo : 2 ^ L ≤ s) (hhi : s < 2 ^ (L + 1)) :
    roundF64 (s : ℚ) =
      (roundHalfEven ((s : ℚ) / 2 ^ ((L : Int) - 52)) : ℚ) *
        2 ^ ((L : Int) - 52) := by
  have h1 : 1 ≤ s := le_trans (Nat.one_le_pow _ _ (by norm_num)) hlo
  have hflog : ratFlog2 (s : ℚ) = (natLog2 128 s : Int) :=
    ratFlog2_natCast s h1 h128
  have hLeq : natLog2 128 s = L := natLog2_eq s L hlo hhi h128
  have hspos : (0 : ℚ) < s := by
    have h' : (1 : ℚ) ≤ (s : ℚ) := by exact_mod_cast h1
    linarith
  simp only [roundF64]
  rw [if_neg hspos.ne', hflog, hLeq]

lemma roundF64_pow53_succ :
    roundF64 (((2 ^ 53 + 1 : ℕ) : ℚ)) = (2 : ℚ) ^ 53 := by
  rw [roundF64_natCast_eq (2 ^ 53 + 1) 53 (by norm_num) (by norm_num)
    (by norm_num)]
  have he : ((53 : ℕ) : Int) - 52 = 1 := by norm_num
  rw [he]
  have hq : ((2 ^ 53 + 1 : ℕ) : ℚ) / 2 ^ (1 : ℤ) =
      ((2 ^ 52 : ℤ) : ℚ) + 1 / 2 := by
    rw [zpow_one]
    push_cast
    norm_num
  rw [hq, roundHalfEven_add_half (2 ^ 52) (by decide), zpow_one]
  push_cast
  norm_num

lemma roundF64_pow53 : roundF64 ((2 : ℚ) ^ 53) = (2 : ℚ) ^ 53 := by
  have hcast : ((2 : ℚ) ^ 53) = ((2 ^ 53 : ℕ) : ℚ) := by push_cast; norm_num
  rw [hcast,
    roundF64_natCast_eq (2 ^ 53) 53 (by norm_num) (by norm_num) (by norm_num)]
  have he : ((53 : ℕ) : Int) - 52 = 1 := by norm_num
  rw [he]
  have hq : ((2 ^ 53 : ℕ) : ℚ) / 2 ^ (1 : ℤ) = ((2 ^ 52 : ℤ) : ℚ) := by
    rw [zpow_one]
    push_cast
    norm_num
  rw [hq, roundHalfEven_intCast, zpow_one]
  push_cast
  norm_num

lemma roundF64_u64max :
    roundF64 (((2 ^ 64 - 1 : ℕ) : ℚ)) = (2 : ℚ) ^ 64 := by
  rw [roundF64_natCast_eq (2 ^ 64 - 1) 63 (by norm_num) (by norm_num)
    (by norm_num)]
  have he : ((63 : ℕ) : Int) - 52 = 11 := by norm_num
  rw [he]
  have hq : ((2 ^ 64 - 1 : ℕ) : ℚ) / 2 ^ (11 : ℤ) =
      ((2 ^ 53 - 1 : ℤ) : ℚ) + 2047 / 2048 := by
    rw [show (11 : ℤ) = ((11 : ℕ) : ℤ) from rfl, zpow_natCast]
    push_cast
    norm_num
  rw [hq]
  have hrhe : roundHalfEven (((2 ^ 53 - 1 : ℤ) : ℚ) + 2047 / 2048) =
      2 ^ 53 := by
    have hfl : ⌊((2 ^ 53 - 1 : ℤ) : ℚ) + 2047 / 2048⌋ = 2 ^ 53 - 1 := by
      refine Int.floor_eq_iff.mpr ⟨by linarith, ?_⟩
      push_cast
      linarith
    unfold roundHalfEven
    rw [hfl]
    have hfrac : ((2 ^ 53 - 1 : ℤ) : ℚ) + 2047 / 2048 -
        ((2 ^ 53 - 1 : ℤ) : ℚ) = 2047 / 2048 := by ring
    rw [hfrac]
    norm_num
  rw [hrhe, show (11 : ℤ) = ((11 : ℕ) : ℤ) from rfl, zpow_natCast]
  push_cast
  norm_num

lemma roundF64_pow64 : roundF64 ((2 : ℚ) ^ 64) = (2 : ℚ) ^ 64 := by
  have hcast : ((2 : ℚ) ^ 64) = ((2 ^ 64 : ℕ) : ℚ) := by push_cast; norm_num
  rw [hcast,
    roundF64_natCast_eq (2 ^ 64) 64 (by norm_num) (by norm_num) (by norm_num)]
  have he : ((64 : ℕ) : Int) - 52 = 12 := by norm_num
  rw [he]
  have hq : ((2 ^ 64 : ℕ) : ℚ) / 2 ^ (12 : ℤ) = ((2 ^ 52 : ℤ) : ℚ) := by
    rw [show (12 : ℤ) = ((12 : ℕ) : ℤ) from rfl, zpow_natCast]
    push_cast
    norm_num
  rw [hq, roundHalfEven_intCast,
    show (12 : ℤ) = ((12 : ℕ) : ℤ) from rfl, zpow_natCast]
  push_cast
  norm_num

lemma as_secs_f64_whole (s : Nat) :
    Duration.as_secs_f64 ⟨s, 0⟩ = roundF64 (roundF64 (s : ℚ)) := by
  simp [Duration.as_secs_f64, f64add, f64div, roundF64_zero]

lemma as_secs_f64_small (s : Nat) (h : s < 2 ^ 53) :
    Duration.as_secs_f64 ⟨s, 0⟩ = (s : ℚ) := by
  rw [as_secs_f64_whole]
  rcases Nat.eq_zero_or_pos s with rfl | hpos
  · simp [roundF64_zero]
  · rw [roundF64_natCast_exact s hpos h, roundF64_natCast_exact s hpos h]

lemma from_secs_f64_natCast (s : Nat) (h : s < 2 ^ 64) :
    Duration.from_secs_f64 (s : ℚ) = Except.ok ⟨s, 0⟩ := by
  simp only [Duration.from_secs_f64]
  rw [if_neg (not_lt.mpr (Nat.cast_nonneg s)),
    if_neg (not_le.mpr (by exact_mod_cast h))]
  have hmul : (s : ℚ) * 10 ^ 9 = ((s * 10 ^ 9 : ℕ) : ℚ) := by
    push_cast
    ring
  rw [hmul, roundHalfEven_natCast, Int.toNat_natCast]
  have hdiv : s * 10 ^ 9 / 10 ^ 9 = s := Nat.mul_div_cancel s (by norm_num)
  have hmod : s * 10 ^ 9 % 10 ^ 9 = 0 := Nat.mul_mod_left s (10 ^ 9)
  rw [hdiv, hmod]

lemma from_secs_f64_pow64 :
    Duration.from_secs_f64 ((2 : ℚ) ^ 64) =
      Except.error durationOverflowMsg := by
  simp only [Duration.from_secs_f64]
  rw [if_neg (by norm_num), if_pos (by norm_num)]

lemma as_secs_f64_pow53_succ :
    Duration.as_secs_f64 ⟨2 ^ 53 + 1, 0⟩ = (2 : ℚ) ^ 53 := by
  rw [as_secs_f64_whole, roundF64_pow53_succ, roundF64_pow53]

lemma as_secs_f64_u64max :
    Duration.as_secs_f64 ⟨2 ^ 64 - 1, 0⟩ = (2 : ℚ) ^ 64 := by
  rw [as_secs_f64_whole, roundF64_u64max, roundF64_pow64]

/-- C5 counterexample: set/get round trips fail beyond the claim's
"documented clamping": setting fps to 2^31 makes get_fps panic instead
of returning the set value; setting the soft cut duration to
Duration::new(2^53 + 1, 0) silently reads back the different duration
Duration::new(2^53, 0) (the f64 seconds conversion rounds); and after
setting the preset duration to Duration::new(u64::MAX, 0) the getter
panics inside Duration::from_secs_f64 (u64::MAX rounds up to 2^64
seconds, which overflows Duration). -/
theorem config_round_trip_counterexample :
    (get_fps (set_fps initialConfig (2 ^ 31)) = Except.error fpsUnwrapMsg ∧
      get_fps (set_fps initialConfig (2 ^ 31)) ≠ Except.ok (2 ^ 31)) ∧
    (get_soft_cut_duration
        (set_soft_cut_duration initialConfig ⟨2 ^ 53 + 1, 0⟩) =
      Except.ok ⟨2 ^ 53, 0⟩ ∧
      Duration.mk (2 ^ 53) 0 ≠ Duration.mk (2 ^ 53 + 1) 0) ∧
    get_preset_duration
        (set_preset_duration initialConfig ⟨2 ^ 64 - 1, 0⟩) =
      Except.error durationOverflowMsg := by
  refine ⟨⟨?_, ?_⟩, ⟨?_, by decide⟩, ?_⟩
  · norm_num [get_fps, set_fps, u32_as_i32, initialConfig]
  · have h1 : get_fps (set_fps initialConfig (2 ^ 31)) =
        Except.error fpsUnwrapMsg := by
      norm_num [get_fps, set_fps, u32_as_i32, initialConfig]
    rw [h1]
    simp
  · simp only [get_soft_cut_duration, set_soft_cut_duration]
    rw [as_secs_f64_pow53_succ,
      show ((2 : ℚ) ^ 53) = ((2 ^ 53 : ℕ) : ℚ) by push_cast; norm_num,
      from_secs_f64_natCast (2 ^ 53) (by norm_num)]
  · simp only [get_preset_duration, set_preset_duration]
    rw [as_secs_f64_u64max, from_secs_f64_pow64]

/-- C5 amended: setting and immediately getting any EngineConfig scalar —
beat sensitivity, hard cut duration, hard cut enabled, hard cut
sensitivity, mesh size, aspect correction, duration variance (easter
egg), lock flag, window size — returns the set value; the fps round trip
additionally requires the set value to be below 2^31 (the stored value
passes through an `as i32` cast on the way in and a panicking unwrap on
the way out), and the Duration-valued soft cut and preset durations
round-trip only when the duration survives the f64 seconds conversion,
as whole-second durations below 2^53 seconds do. -/
theorem config_round_trip (c : EngineConfig) (q : ℚ) (b : Bool)
    (n m fps : Nat) (hf : fps < 2 ^ 31) (s : Nat) (hs : s < 2 ^ 53) :
    get_beat_sensitivity (set_beat_sensitivity c q) = q ∧
    get_hard_cut_duration (set_hard_cut_duration c q) = q ∧
    get_hard_cut_enabled (set_hard_cut_enabled c b) = b ∧
    get_hard_cut_sensitivity (set_hard_cut_sensitivity c q) = q ∧
    get_soft_cut_duration (set_soft_cut_duration c ⟨s, 0⟩) =
      Except.ok ⟨s, 0⟩ ∧
    get_preset_duration (set_preset_duration c ⟨s, 0⟩) =
      Except.ok ⟨s, 0⟩ ∧
    get_mesh_size (set_mesh_size c n m) = (n, m) ∧
    get_fps (set_fps c fps) = Except.ok fps ∧
    get_aspect_correction (set_aspect_correction c b) = b ∧
    get_easter_egg (set_easter_egg c q) = q ∧
    get_preset_locked (set_preset_locked c b) = b ∧
    get_window_size (set_window_size c n m) = (n, m) := by
  refine ⟨rfl, rfl, rfl, rfl, ?_, ?_, rfl, ?_, rfl, rfl, rfl, rfl⟩
  · simp only [get_soft_cut_duration, set_soft_cut_duration]
    rw [as_secs_f64_small s hs]
    exact from_secs_f64_natCast s (lt_trans hs (by norm_num))
  · simp only [get_preset_duration, set_preset_duration]
    rw [as_secs_f64_small s hs]
    exact from_secs_f64_natCast s (lt_trans hs (by norm_num))
  · norm_num at hf
    simp [get_fps, set_fps, u32_as_i32, hf]

/-- Witness for the amended C5 at concrete inputs, with a 30-second
duration for the Duration-valued fields. -/
theorem config_round_trip_witness :
    ((60 : Nat) < 2 ^ 31 ∧ (30 : Nat) < 2 ^ 53) ∧
    get_beat_sensitivity (set_beat_sensitivity initialConfig 2) = 2 ∧
    get_hard_cut_duration (set_hard_cut_duration initialConfig 2) = 2 ∧
    get_hard_cut_enabled (set_hard_cut_enabled initialConfig true) = true ∧
    get_hard_cut_sensitivity (set_hard_cut_sensitivity initialConfig 2) =
      2 ∧
    get_soft_cut_duration (set_soft_cut_duration initialConfig ⟨30, 0⟩) =
      Except.ok ⟨30, 0⟩ ∧
    get_preset_duration (set_preset_duration initialConfig ⟨30, 0⟩) =
      Except.ok ⟨30, 0⟩ ∧
    get_mesh_size (set_mesh_size initialConfig 48 32) = (48, 32) ∧
    get_fps (set_fps initialConfig 60) = Except.ok 60 ∧
    get_aspect_correction (set_aspect_correction initialConfig true) =
      true ∧
    get_easter_egg (set_easter_egg initialConfig 2) = 2 ∧
    get_preset_locked (set_preset_locked initialConfig true) = true ∧
    get_window_size (set_window_size initialConfig 48 32) = (48, 32) :=
  ⟨⟨by decide, by decide⟩,
    config_round_trip initialConfig 2 true 48 32 60 (by decide) 30
      (by decide)⟩

/-- C9: the fps round trip holds exactly below 2^31 — for fps below 2^31
the engine stores the value unchanged and get_fps returns it exactly,
while for fps at or above 2^31 (within the u32 range) the `as i32` cast
makes the engine receive a negative value and get_fps panics on its
unwrap. -/
theorem fps_round_trip_boundary (c : EngineConfig) (fps : Nat)
    (h : fps < 2 ^ 32) :
    (fps < 2 ^ 31 →
      (set_fps c fps).fpsStored = (fps : Int) ∧
      get_fps (set_fps c fps) = Except.ok fps) ∧
    (2 ^ 31 ≤ fps →
      (set_fps c fps).fpsStored < 0 ∧
      get_fps (set_fps c fps) = Except.error fpsUnwrapMsg) := by
  constructor
  · intro hlt
    norm_num at hlt
    refine ⟨by simp [set_fps, u32_as_i32, hlt], ?_⟩
    simp [get_fps, set_fps, u32_as_i32, hlt]
  · intro hge
    norm_num at hge h
    have hn : ¬ fps < 2147483648 := by omega
    have hneg : (fps : Int) - 4294967296 < 0 := by
      have hfi : (fps : Int) < 4294967296 := by exact_mod_cast h
      omega
    refine ⟨by simp [set_fps, u32_as_i32, hn, hneg], ?_⟩
    simp [get_fps, set_fps, u32_as_i32, hn, Int.not_le.mpr hneg]

/-- Witness for C9 at the boundary value 2^31 and at 60. -/
theorem fps_round_trip_boundary_witness :
    ((2 ^ 31 : Nat) < 2 ^ 32 ∧ (60 : Nat) < 2 ^ 32) ∧
    ((2 ^ 31 : Nat) ≥ 2 ^ 31 →
      (set_fps initialConfig (2 ^ 31)).fpsStored < 0 ∧
      get_fps (set_fps initialConfig (2 ^ 31)) =
        Except.error fpsUnwrapMsg) ∧
    ((60 : Nat) < 2 ^ 31 →
      (set_fps initialConfig 60).fpsStored = (60 : Int) ∧
      get_fps (set_fps initialConfig 60) = Except.ok 60) :=
  ⟨⟨by decide, by decide⟩,
    (fps_round_trip_boundary initialConfig (2 ^ 31) (by decide)).2,
    (fps_round_trip_boundary initialConfig 60 (by decide)).1⟩

/-- C2: every hard-cut request that is processed (explicit, or any source
while the preset is unlocked) ends the render call with TransitionState
Idle; on successful compilation the active slot holds exactly the
requested artifact, and on compile failure (for a hard or a soft cut) the
previously active slot is left fully intact and a PresetSwitchFailed
event fires. -/
theorem hard_cut_resolves_same_frame (compile : Nat → Except String Nat)
    (c : Controller) (src : RequestSource) (preset : Nat) (now : ℚ)
    (hproc : src = RequestSource.explicitReq ∨ c.presetLocked = false) :
    (handleSwitchRequest compile c src SwitchKind.hard preset now).1.state =
      TransitionState.Idle ∧
    (∀ a, compile preset = Except.ok a →
      (handleSwitchRequest compile c src SwitchKind.hard preset
        now).1.active.artifact = a) ∧
    (∀ msg, compile preset = Except.error msg →
      (handleSwitchRequest compile c src SwitchKind.hard preset
          now).1.active = c.active ∧
      EngineEvent.switchFailed preset msg ∈
        (handleSwitchRequest compile c src SwitchKind.hard preset
          now).2) ∧
    (∀ msg, compile preset = Except.error msg →
      (handleSwitchRequest compile c src SwitchKind.soft preset
          now).1.active = c.active ∧
      EngineEvent.switchFailed preset msg ∈
        (handleSwitchRequest compile c src SwitchKind.soft preset
          now).2) := by
  have hno : ¬ (c.presetLocked ∧ src ≠ RequestSource.explicitReq) := by
    rcases hproc with h | h
    · simp [h]
    · simp [h]
  refine ⟨?_, ?_, ?_, ?_⟩
  · cases hcp : compile preset <;>
      simp [handleSwitchRequest, hno, hcp]
  · intro a ha
    simp [handleSwitchRequest, hno, ha]
  · intro msg hmsg
    simp [handleSwitchRequest, hno, hmsg]
  · intro msg hmsg
    simp [handleSwitchRequest, hno, hmsg]

/-- A concrete controller used by closed statements about the transition
state machine: unlocked, idle, with a three-second soft cut duration. -/
def idleController : Controller :=
  { active := { artifact := 1, warpState := 5, meshX := 32, meshY := 24 }
  , incoming := none
  , state := TransitionState.Idle
  , presetLocked := false
  , softCutDuration := 3 }

/-- A compiler model for closed statements: preset 0 fails to compile,
every other preset compiles to an artifact equal to the preset id. -/
def sampleCompile (preset : Nat) : Except String Nat :=
  if preset = 0 then Except.error "syntax" else Except.ok preset

/-- Witness for C2 at a concrete controller, for a succeeding explicit
hard cut and for failing hard and soft cuts. -/
theorem hard_cut_resolves_same_frame_witness :
    (RequestSource.explicitReq = RequestSource.explicitReq ∨
      idleController.presetLocked = false) ∧
    ((handleSwitchRequest sampleCompile idleController
        RequestSource.explicitReq SwitchKind.hard 7 0).1.state =
      TransitionState.Idle ∧
    (∀ a, sampleCompile 7 = Except.ok a →
      (handleSwitchRequest sampleCompile idleController
        RequestSource.explicitReq SwitchKind.hard 7 0).1.active.artifact =
        a) ∧
    (∀ msg, sampleCompile 7 = Except.error msg →
      (handleSwitchRequest sampleCompile idleController
          RequestSource.explicitReq SwitchKind.hard 7 0).1.active =
        idleController.active ∧
      EngineEvent.switchFailed 7 msg ∈
        (handleSwitchRequest sampleCompile idleController
          RequestSource.explicitReq SwitchKind.hard 7 0).2) ∧
    (∀ msg, sampleCompile 7 = Except.error msg →
      (handleSwitchRequest sampleCompile idleController
          RequestSource.explicitReq SwitchKind.soft 7 0).1.active =
        idleController.active ∧
      EngineEvent.switchFailed 7 msg ∈
        (handleSwitchRequest sampleCompile idleController
          RequestSource.explicitReq SwitchKind.soft 7 0).2)) ∧
    ((handleSwitchRequest sampleCompile idleController
        RequestSource.explicitReq SwitchKind.hard 0 0).1.state =
      TransitionState.Idle ∧
    (∀ msg, sampleCompile 0 = Except.error msg →
      (handleSwitchRequest sampleCompile idleController
          RequestSource.explicitReq SwitchKind.hard 0 0).1.active =
        idleController.active ∧
      EngineEvent.switchFailed 0 msg ∈
        (handleSwitchRequest sampleCompile idleController
          RequestSource.explicitReq SwitchKind.hard 0 0).2) ∧
    (∀ msg, sampleCompile 0 = Except.error msg →
      (handleSwitchRequest sampleCompile idleController
          RequestSource.explicitReq SwitchKind.soft 0 0).1.active =
        idleController.active ∧
      EngineEvent.switchFailed 0 msg ∈
        (handleSwitchRequest sampleCompile idleController
          RequestSource.explicitReq SwitchKind.soft 0 0).2)) :=
  ⟨Or.inl rfl,
    hard_cut_resolves_same_frame sampleCompile idleController
      RequestSource.explicitReq 7 0 (Or.inl rfl),
    (hard_cut_resolves_same_frame sampleCompile idleController
      RequestSource.explicitReq 0 0 (Or.inl rfl)).1,
    (hard_cut_resolves_same_frame sampleCompile idleController
      RequestSource.explicitReq 0 0 (Or.inl rfl)).2.2.1,
    (hard_cut_resolves_same_frame sampleCompile idleController
      RequestSource.explicitReq 0 0 (Or.inl rfl)).2.2.2⟩

/-- C4: in every state with preset_locked true, timer-driven and
audio-driven switch requests are suppressed silently — the controller is
returned unchanged and no event fires — while an explicit caller-driven
switch still succeeds (a hard cut installs the compiled artifact and ends
Idle, a soft cut enters SoftCutInProgress). -/
theorem locked_suppresses_non_explicit (compile : Nat → Except String Nat)
    (c : Controller) (kind : SwitchKind) (preset : Nat) (now : ℚ)
    (hlock : c.presetLocked = true) :
    handleSwitchRequest compile c RequestSource.timer kind preset now =
      (c, []) ∧
    handleSwitchRequest compile c RequestSource.audio kind preset now =
      (c, []) ∧
    (∀ a, compile preset = Except.ok a →
      (handleSwitchRequest compile c RequestSource.explicitReq
          SwitchKind.hard preset now).1.state = TransitionState.Idle ∧
      (handleSwitchRequest compile c RequestSource.explicitReq
          SwitchKind.hard preset now).1.active.artifact = a ∧
      (handleSwitchRequest compile c RequestSource.explicitReq
          SwitchKind.soft preset now).1.state =
        TransitionState.SoftCutInProgress 0 now) := by
  refine ⟨?_, ?_, ?_⟩
  · simp [handleSwitchRequest, hlock]
  · simp [handleSwitchRequest, hlock]
  · intro a ha
    simp [handleSwitchRequest, ha]

/-- A locked variant of the concrete controller. -/
def lockedController : Controller :=
  { idleController with presetLocked := true }

/-- Witness for C4 at a concrete locked controller. -/
theorem locked_suppresses_non_explicit_witness :
    lockedController.presetLocked = true ∧
    handleSwitchRequest sampleCompile lockedController
      RequestSource.timer SwitchKind.hard 7 0 = (lockedController, []) ∧
    handleSwitchRequest sampleCompile lockedController
      RequestSource.audio SwitchKind.hard 7 0 = (lockedController, []) ∧
    (∀ a, sampleCompile 7 = Except.ok a →
      (handleSwitchRequest sampleCompile lockedController
          RequestSource.explicitReq SwitchKind.hard 7 0).1.state =
        TransitionState.Idle ∧
      (handleSwitchRequest sampleCompile lockedController
          RequestSource.explicitReq SwitchKind.hard 7 0).1.active.artifact =
        a ∧
      (handleSwitchRequest sampleCompile lockedController
          RequestSource.explicitReq SwitchKind.soft 7 0).1.state =
        TransitionState.SoftCutInProgress 0 0) :=
  ⟨rfl,
    locked_suppresses_non_explicit sampleCompile lockedController
      SwitchKind.hard 7 0 rfl⟩

lemma advanceFrame_softCutDuration (delta : ℚ) (c : Controller) :
    (advanceFrame delta c).softCutDuration = c.softCutDuration := by
  unfold advanceFrame
  rcases hs : c.state with _ | _ | ⟨p, t⟩ <;> simp [hs]
  split <;> rfl

lemma advanceFrame_softCut (delta : ℚ) (c : Controller) (p t : ℚ)
    (hs : c.state = TransitionState.SoftCutInProgress p t) :
    advanceFrame delta c =
      if 1 ≤ min 1 (p + delta / c.softCutDuration) then
        { c with
            state := TransitionState.Idle
            active := c.incoming.getD c.active
            incoming := none }
      else
        { c with
            state := TransitionState.SoftCutInProgress
              (min 1 (p + delta / c.softCutDuration)) t } := by
  unfold advanceFrame
  rw [hs]

lemma advanceFrame_idle (delta : ℚ) (c : Controller)
    (hs : c.state = TransitionState.Idle) :
    advanceFrame delta c = c := by
  unfold advanceFrame
  rw [hs]

lemma softCutRatio_mono (d delta : ℚ) (hd : 0 < d) (hdelta : 0 < delta)
    {m n : ℕ} (hmn : m ≤ n) :
    (m : ℚ) * delta / d ≤ (n : ℚ) * delta / d := by
  gcongr


lemma softCutProgress_mono (d delta : ℚ) (hd : 0 < d) (hdelta : 0 < delta)
    {m n : ℕ} (hmn : m ≤ n) :
    softCutProgress d delta m ≤ softCutProgress d delta n :=
  min_le_min le_rfl (softCutRatio_mono d delta hd hdelta hmn)

/-- The state of the controller after `n` frames of constant delta spent
in a soft cut started at progress 0: it shows the unclamped progress
ratio while that ratio is below 1 and is Idle from the first frame on
which the clamped progress reaches 1. -/
lemma softCut_iterate_invariant (d delta : ℚ) (hd : 0 < d)
    (hdelta : 0 < delta) (c : Controller) (t : ℚ)
    (hdur : c.softCutDuration = d)
    (hstate : c.state = TransitionState.SoftCutInProgress 0 t) :
    ∀ n : ℕ,
      ((advanceFrame delta)^[n] c).softCutDuration = d ∧
      ((advanceFrame delta)^[n] c).state =
        (if (n : ℚ) * delta / d < 1
         then TransitionState.SoftCutInProgress ((n : ℚ) * delta / d) t
         else TransitionState.Idle) := by
  intro n
  induction n with
  | zero =>
    refine ⟨by simpa using hdur, ?_⟩
    have h0 : ((0 : ℕ) : ℚ) * delta / d = 0 := by push_cast; ring
    simp only [Function.iterate_zero, id_eq, h0]
    rw [if_pos (by norm_num)]
    exact hstate
  | succ n ih =>
    obtain ⟨ihd, ihs⟩ := ih
    rw [Function.iterate_succ_apply']
    by_cases hn : (n : ℚ) * delta / d < 1
    · rw [if_pos hn] at ihs
      have hstep : (n : ℚ) * delta / d + delta / d =
          ((n + 1 : ℕ) : ℚ) * delta / d := by
        push_cast
        ring
      refine ⟨by rw [advanceFrame_softCutDuration]; exact ihd, ?_⟩
      rw [advanceFrame_softCut delta _ _ _ ihs, ihd, hstep]
      by_cases h1 : 1 ≤ ((n + 1 : ℕ) : ℚ) * delta / d
      · rw [min_eq_left h1, if_pos le_rfl, if_neg (not_lt.mpr h1)]
      · have hr : ((n + 1 : ℕ) : ℚ) * delta / d < 1 := not_le.mp h1
        rw [min_eq_right hr.le, if_neg h1, if_pos hr]
    · rw [if_neg hn] at ihs
      have hge : 1 ≤ ((n + 1 : ℕ) : ℚ) * delta / d :=
        le_trans (not_lt.mp hn)
          (softCutRatio_mono d delta hd hdelta (Nat.le_succ n))
      refine ⟨?_, ?_⟩
      · rw [advanceFrame_idle delta _ ihs]
        exact ihd
      · rw [advanceFrame_idle delta _ ihs, ihs, if_neg (not_lt.mpr hge)]

/-- C3: while the controller is in SoftCutInProgress the progress field
is monotonically non-decreasing across consecutive frames; the state
transitions to Idle exactly when the progress ratio reaches 1 (and a
hard cut preempts the soft cut to Idle at any point); and under constant
frame delta the clamped progress reaches exactly 1 within
ceil(soft_cut_duration / frame_delta) frames, at which frame the
controller is Idle. -/
theorem soft_cut_progress_monotone_and_completes (d delta : ℚ)
    (c : Controller) (t : ℚ) (hd : 0 < d) (hdelta : 0 < delta)
    (hdur : c.softCutDuration = d)
    (hstate : c.state = TransitionState.SoftCutInProgress 0 t) :
    (∀ m n : ℕ, m ≤ n →
      softCutProgress d delta m ≤ softCutProgress d delta n) ∧
    (∀ (n : ℕ) (p q t1 t2 : ℚ),
      ((advanceFrame delta)^[n] c).state =
        TransitionState.SoftCutInProgress p t1 →
      ((advanceFrame delta)^[n + 1] c).state =
        TransitionState.SoftCutInProgress q t2 →
      p ≤ q) ∧
    (∀ n : ℕ, ((advanceFrame delta)^[n] c).state = TransitionState.Idle ↔
      1 ≤ (n : ℚ) * delta / d) ∧
    (∀ (compile : Nat → Except String Nat) (preset : Nat) (now : ℚ)
      (n : ℕ),
      (handleSwitchRequest compile ((advanceFrame delta)^[n] c)
        RequestSource.explicitReq SwitchKind.hard preset
        now).1.state = TransitionState.Idle) ∧
    (((advanceFrame delta)^[⌈d / delta⌉₊] c).state =
        TransitionState.Idle ∧
      softCutProgress d delta ⌈d / delta⌉₊ = 1) := by
  have inv := softCut_iterate_invariant d delta hd hdelta c t hdur hstate
  have hceil : 1 ≤ ((⌈d / delta⌉₊ : ℕ) : ℚ) * delta / d := by
    have h1 : d / delta ≤ ((⌈d / delta⌉₊ : ℕ) : ℚ) := Nat.le_ceil _
    rw [div_le_iff₀ hdelta] at h1
    rw [le_div_iff₀ hd]
    linarith
  refine ⟨fun m n hmn => softCutProgress_mono d delta hd hdelta hmn,
    ?_, ?_, ?_, ?_, ?_⟩
  · intro n p q t1 t2 hp hq
    rw [(inv n).2] at hp
    rw [(inv (n + 1)).2] at hq
    by_cases hn : (n : ℚ) * delta / d < 1
    · rw [if_pos hn] at hp
      by_cases hn1 : ((n + 1 : ℕ) : ℚ) * delta / d < 1
      · rw [if_pos hn1] at hq
        injection hp with hp1 hp2
        injection hq with hq1 hq2
        rw [← hp1, ← hq1]
        exact softCutRatio_mono d delta hd hdelta (Nat.le_succ n)
      · rw [if_neg hn1] at hq
        simp at hq
    · rw [if_neg hn] at hp
      simp at hp
  · intro n
    rw [(inv n).2]
    by_cases hn : (n : ℚ) * delta / d < 1
    · rw [if_pos hn]
      simp [not_le.mpr hn]
    · rw [if_neg hn]
      simp [not_lt.mp hn]
  · intro compile preset now n
    cases hcp : compile preset <;> simp [handleSwitchRequest, hcp]
  · rw [(inv ⌈d / delta⌉₊).2, if_neg (not_lt.mpr hceil)]
  · unfold softCutProgress
    exact min_eq_left hceil

/-- A concrete controller one frame into a soft cut, used by closed
statements: unlocked, two-second soft cut, incoming slot present. -/
def softCutController : Controller :=
  { active := { artifact := 1, warpState := 5, meshX := 32, meshY := 24 }
  , incoming := some { artifact := 2, warpState := 0, meshX := 32, meshY := 24 }
  , state := TransitionState.SoftCutInProgress 0 0
  , presetLocked := false
  , softCutDuration := 2 }

/-- Witness for C3 with a two-second soft cut advanced by one-second
frames. -/
theorem soft_cut_progress_monotone_and_completes_witness :
    ((0 : ℚ) < 2 ∧ (0 : ℚ) < 1 ∧
      softCutController.softCutDuration = 2 ∧
      softCutController.state = TransitionState.SoftCutInProgress 0 0) ∧
    ((∀ m n : ℕ, m ≤ n →
      softCutProgress 2 1 m ≤ softCutProgress 2 1 n) ∧
    (∀ (n : ℕ) (p q t1 t2 : ℚ),
      ((advanceFrame 1)^[n] softCutController).state =
        TransitionState.SoftCutInProgress p t1 →
      ((advanceFrame 1)^[n + 1] softCutController).state =
        TransitionState.SoftCutInProgress q t2 →
      p ≤ q) ∧
    (∀ n : ℕ,
      ((advanceFrame 1)^[n] softCutController).state =
        TransitionState.Idle ↔ 1 ≤ (n : ℚ) * 1 / 2) ∧
    (∀ (compile : Nat → Except String Nat) (preset : Nat) (now : ℚ)
      (n : ℕ),
      (handleSwitchRequest compile
        ((advanceFrame 1)^[n] softCutController)
        RequestSource.explicitReq SwitchKind.hard preset
        now).1.state = TransitionState.Idle) ∧
    (((advanceFrame 1)^[⌈(2 : ℚ) / 1⌉₊] softCutController).state =
        TransitionState.Idle ∧
      softCutProgress 2 1 ⌈(2 : ℚ) / 1⌉₊ = 1)) :=
  ⟨⟨by norm_num, by norm_num, rfl, rfl⟩,
    soft_cut_progress_monotone_and_completes 2 1 softCutController 0
      (by norm_num) (by norm_num) rfl rfl⟩

/-- C10: string arguments are marshaled via CString and panic on an
interior NUL byte — write_debug_image_on_next_frame panics if the output
file bytes contain a NUL, set_texture_search_paths panics if any search
path contains a NUL, and for all other inputs each string reaches the
engine NUL-terminated, with a trailing null entry appended to the
search-path pointer array. -/
theorem string_marshaling_nul (p : List Nat) (paths : List (List Nat))
    (count : Nat) :
    (0 ∈ p →
      write_debug_image_on_next_frame (some p) =
        Except.error debugImageExpectMsg) ∧
    (0 ∉ p →
      write_debug_image_on_next_frame (some p) =
        Except.ok (some (p ++ [0]))) ∧
    ((∃ q ∈ paths, 0 ∈ q) →
      ∃ m, set_texture_search_paths paths count = Except.error m) ∧
    ((∀ q ∈ paths, 0 ∉ q) →
      set_texture_search_paths paths count =
        Except.ok (paths.map (fun q => some (q ++ [0])) ++ [none],
          count)) := by
  have hmap_ok : ∀ ps : List (List Nat), (∀ q ∈ ps, 0 ∉ q) →
      cstringList ps = Except.ok (ps.map (fun q => q ++ [0])) := by
    intro ps
    induction ps with
    | nil => intro _; rfl
    | cons hd tl ih =>
      intro hall
      have hhd : 0 ∉ hd := hall hd (List.mem_cons_self hd tl)
      have htl := ih (fun q hq => hall q (List.mem_cons_of_mem hd hq))
      simp [cstringList, cstring_new, hhd, htl]
  have hmap_err : ∀ ps : List (List Nat), (∃ q ∈ ps, 0 ∈ q) →
      ∃ m, cstringList ps = Except.error m := by
    intro ps
    induction ps with
    | nil => intro h; simp at h
    | cons hd tl ih =>
      intro h
      by_cases hhd : 0 ∈ hd
      · refine ⟨"nul byte found in provided data", ?_⟩
        simp [cstringList, cstring_new, hhd]
      · obtain ⟨q, hq, hq0⟩ := h
        rcases List.mem_cons.mp hq with rfl | hqtl
        · exact absurd hq0 hhd
        · obtain ⟨m, hm⟩ := ih ⟨q, hqtl, hq0⟩
          refine ⟨m, ?_⟩
          simp [cstringList, cstring_new, hhd, hm]
  refine ⟨?_, ?_, ?_, ?_⟩
  · intro h
    simp [write_debug_image_on_next_frame, cstring_new, h]
  · intro h
    simp [write_debug_image_on_next_frame, cstring_new, h]
  · intro h
    obtain ⟨m, hm⟩ := hmap_err paths h
    refine ⟨m, ?_⟩
    simp [set_texture_search_paths, hm]
  · intro h
    simp [set_texture_search_paths, hmap_ok paths h]

/-- Witness for C10: a clean path and a NUL-carrying path for the debug
image, and one clean plus one NUL-carrying search path list. -/
theorem string_marshaling_nul_witness :
    (0 ∈ [104, 0, 105] ∧ (0 : Nat) ∉ [104, 105] ∧
      (∃ q ∈ [[47, 0]], (0 : Nat) ∈ q) ∧
      (∀ q ∈ [[47, 97], [47, 98]], (0 : Nat) ∉ q)) ∧
    write_debug_image_on_next_frame (some [104, 0, 105]) =
      Except.error debugImageExpectMsg ∧
    write_debug_image_on_next_frame (some [104, 105]) =
      Except.ok (some [104, 105, 0]) ∧
    (∃ m, set_texture_search_paths [[47, 0]] 1 = Except.error m) ∧
    set_texture_search_paths [[47, 97], [47, 98]] 2 =
      Except.ok ([some [47, 97, 0], some [47, 98, 0], none], 2) :=
  ⟨⟨by decide, by decide, ⟨[47, 0], by decide, by decide⟩, by decide⟩,
    (string_marshaling_nul [104, 0, 105] [[47, 97], [47, 98]] 2).1
      (by decide),
    (string_marshaling_nul [104, 105] [[47, 97], [47, 98]] 2).2.1
      (by decide),
    (string_marshaling_nul [104, 105] [[47, 0]] 1).2.2.1
      ⟨[47, 0], by decide, by decide⟩,
    (string_marshaling_nul [104, 105] [[47, 97], [47, 98]] 2).2.2.2
      (by decide)⟩

end ProjectM
